import Mathlib

/-
Verification of the STM32 UART bootloader client `stm32_loader.py`
(Zubax serial updater).

The development embeds the program at two levels:

* a channel level, where a `Chan` carries the bytes still readable from
  the serial port (`input`) and the bytes written to it so far
  (`output`); the command-protocol operations (`read_memory`,
  `write_memory`, `wait_for_ack`, ...) are functions
  `Chan → Except Err α × Chan`, mirroring the Python methods
  line by line;

* an orchestrator level, where the outcome of each device exchange is
  given by a `Loader` oracle and `load` / the block-transfer engine are
  functions producing an `Except Err` result together with the list of
  `Event`s (device exchanges and progress-callback invocations)
  performed, in order.

Python ints are embedded as `Nat` (byte values stay below 256 on the
wire), byte strings as `List Nat`, exceptions as the `Err` type carried
in `Except`, and the float progress fractions as `ℚ`.
-/

set_option maxRecDepth 8192

namespace Stm32

/-- ACK byte constant (source: `ACK = 0x79`). -/
def ACK : Nat := 0x79

/-- NACK byte constant (source: `NACK = 0x1F`). -/
def NACK : Nat := 0x1F

/-- Synchronization byte (source: `SYNCHRONIZATION_BYTE = 0x7F`). -/
def SYNCHRONIZATION_BYTE : Nat := 0x7F

/-- Write chunk size (source: `WRITE_BLOCK_SIZE = 256`). -/
def WRITE_BLOCK_SIZE : Nat := 256

/-- Read chunk size (source: `READ_BLOCK_SIZE = 256`). -/
def READ_BLOCK_SIZE : Nat := 256

/-- GET command opcode (source: `CMD_GET = 0x00`). -/
def CMD_GET : Nat := 0x00

/-- READ MEMORY command opcode (source: `CMD_READ_MEMORY = 0x11`). -/
def CMD_READ_MEMORY : Nat := 0x11

/-- GO command opcode (source: `CMD_GO = 0x21`). -/
def CMD_GO : Nat := 0x21

/-- WRITE MEMORY command opcode (source: `CMD_WRITE_MEMORY = 0x31`). -/
def CMD_WRITE_MEMORY : Nat := 0x31

/-- ERASE command opcode (source: `CMD_ERASE = 0x43`). -/
def CMD_ERASE : Nat := 0x43

/-- EXTENDED ERASE command opcode (source: `CMD_EXTENDED_ERASE = 0x44`). -/
def CMD_EXTENDED_ERASE : Nat := 0x44

/-- Default load address (source: `DEFAULT_FLASH_ADDRESS = 0x08000000`). -/
def DEFAULT_FLASH_ADDRESS : Nat := 0x08000000

/-- Exceptions raised by the loader, one constructor per raise site:
`timeout` is `STM32LoaderTimeoutException` (line 77), `nack` is
`STM32LoaderNACKException` (line 93), `protocol b` is the
`STM32LoaderException('Invalid response while waiting for ACK: ...')`
carrying the offending byte (line 95), `invalidDataLength` is
`STM32LoaderException('Invalid data length')` (line 174),
`getIdUnexpected` is `STM32LoaderException('GET ID: ...')` (line 134)
and `verification` is `STM32LoaderException('Verification failed')`
(line 314). -/
inductive Err where
  | timeout
  | nack
  | protocol (found : Nat)
  | invalidDataLength
  | getIdUnexpected
  | verification
deriving DecidableEq, Repr

/-- Serial channel state: `input` is the sequence of bytes that the
device has made available for reading (in arrival order) and `output`
the bytes the host has written so far. -/
structure Chan where
  input : List Nat
  output : List Nat
deriving DecidableEq, Repr

/-- Result of a channel-level operation: an `Except` outcome paired with
the channel state after the operation. -/
abbrev CRes (α : Type) := Except Err α × Chan

/-- Embeds `STM32Loader._read_bytes` (lines 73-81): `io.read(n)` yields
the available bytes up to `n`; if fewer than `n` arrived the Python code
raises `STM32LoaderTimeoutException`. -/
def read_bytes (num_bytes : Nat) (c : Chan) : CRes (List Nat) :=
  if num_bytes ≤ c.input.length then
    (.ok (c.input.take num_bytes), ⟨c.input.drop num_bytes, c.output⟩)
  else
    (.error .timeout, ⟨c.input.drop num_bytes, c.output⟩)

/-- Embeds `STM32Loader._write` (lines 86-88): append to the wire. -/
def write (data : List Nat) (c : Chan) : Chan :=
  { c with output := c.output ++ data }

/-- Embeds `STM32Loader._wait_for_ack` (lines 90-95); `_read_byte` is
`_read_bytes(1)[0]`, rendered by `List.headD` on the 1-byte result. -/
def wait_for_ack (c : Chan) : CRes Unit :=
  match read_bytes 1 c with
  | (.error e, c) => (.error e, c)
  | (.ok bs, c) =>
    let x := bs.headD 0
    if x = NACK then (.error .nack, c)
    else if x ≠ ACK then (.error (.protocol x), c)
    else (.ok (), c)

/-- Embeds `STM32Loader.generic_execute_and_confirm` (lines 106-110). -/
def generic_execute_and_confirm (cmd : Nat) (c : Chan) : CRes Unit :=
  let c := write [cmd] c
  let c := write [cmd ^^^ 0xFF] c
  wait_for_ack c

/-- Embeds `STM32Loader._encode_address_with_checksum` (lines 148-153):
`struct.pack('>I', address)` gives the 4 big-endian bytes (the call
requires `address < 2^32`), and `reduce` with no initial value XORs them
together, which equals a fold from `0` since `0` is the XOR identity. -/
def encode_address_with_checksum (address : Nat) : List Nat :=
  let address_bytes : List Nat :=
    [address / 16777216 % 256, address / 65536 % 256, address / 256 % 256, address % 256]
  address_bytes ++ [address_bytes.foldl (· ^^^ ·) 0]

/-- Embeds `STM32Loader.read_memory` (lines 155-170).  Note that the
length byte sent to the device is `min(length, 256) - 1` but the final
`_read_bytes` call requests `length` bytes. -/
def read_memory (start_address length : Nat) (c : Chan) : CRes (List Nat) :=
  match generic_execute_and_confirm CMD_READ_MEMORY c with
  | (.error e, c) => (.error e, c)
  | (.ok _, c) =>
    let c := write (encode_address_with_checksum start_address) c
    match wait_for_ack c with
    | (.error e, c) => (.error e, c)
    | (.ok _, c) =>
      let encoded_length := min length 256 - 1
      let c := write [encoded_length] c
      let c := write [encoded_length ^^^ 0xFF] c
      match wait_for_ack c with
      | (.error e, c) => (.error e, c)
      | (.ok _, c) =>
        match read_bytes length c with
        | (.error e, c) => (.error e, c)
        | (.ok data, c) => (.ok data, c)

/-- Embeds `STM32Loader.write_memory` (lines 172-194). -/
def write_memory (start_address : Nat) (data : List Nat) (c : Chan) : CRes Unit :=
  if data.length > 256 ∨ data.length = 0 ∨ data.length % 4 ≠ 0 then
    (.error .invalidDataLength, c)
  else
    match generic_execute_and_confirm CMD_WRITE_MEMORY c with
    | (.error e, c) => (.error e, c)
    | (.ok _, c) =>
      let c := write (encode_address_with_checksum start_address) c
      match wait_for_ack c with
      | (.error e, c) => (.error e, c)
      | (.ok _, c) =>
        let encoded_length := data.length - 1
        let c := write [encoded_length] c
        let checksum := data.foldl (· ^^^ ·) encoded_length
        let c := write data c
        let c := write [checksum] c
        wait_for_ack c

/-- C5: `readAck` (`_wait_for_ack`) reads exactly one byte: on `0x1F` it
fails with the NACK error, on any byte other than `0x79`/`0x1F` it fails
with the protocol error carrying that byte, on `0x79` it succeeds
silently, and when no byte is available it fails with the timeout
error. -/
theorem c5_wait_for_ack (b : Nat) (rest out : List Nat) :
    wait_for_ack ⟨b :: rest, out⟩ =
      (if b = NACK then (.error .nack, (⟨rest, out⟩ : Chan))
       else if b ≠ ACK then (.error (.protocol b), (⟨rest, out⟩ : Chan))
       else (.ok (), (⟨rest, out⟩ : Chan)))
    ∧ wait_for_ack ⟨[], out⟩ = (.error .timeout, (⟨[], out⟩ : Chan)) := by
  constructor
  · simp only [wait_for_ack, read_bytes]
    simp
  · simp [wait_for_ack, read_bytes]

/-- C3: for every data chunk `D` with `len(D)` a multiple of 4 in
`(0, 256]`, `write_memory` sends (after the confirmed command and
address frames) the length byte `len(D) - 1`, then `D`, then exactly one
checksum byte equal to the XOR-fold of `len(D) - 1` with every byte of
`D`, and then waits for one final ACK.  The first conjunct shows the
exact bytes on the wire when the device ACKs three times; the second
shows that with only two ACKs available the operation fails on a final
ACK wait that happens after all data and checksum bytes are already
written out. -/
theorem c3_write_memory_wire (D : List Nat) (sa : Nat)
    (h1 : 0 < D.length) (h2 : D.length ≤ 256) (h3 : D.length % 4 = 0) :
    write_memory sa D ⟨[ACK, ACK, ACK], []⟩ =
      (.ok (), ⟨[], ([CMD_WRITE_MEMORY, CMD_WRITE_MEMORY ^^^ 0xFF] ++
        encode_address_with_checksum sa) ++
        ([D.length - 1] ++ D ++ [D.foldl (· ^^^ ·) (D.length - 1)])⟩)
    ∧ write_memory sa D ⟨[ACK, ACK], []⟩ =
      (.error .timeout, ⟨[], ([CMD_WRITE_MEMORY, CMD_WRITE_MEMORY ^^^ 0xFF] ++
        encode_address_with_checksum sa) ++
        ([D.length - 1] ++ D ++ [D.foldl (· ^^^ ·) (D.length - 1)])⟩) := by
  have hneg : ¬(D.length > 256 ∨ D.length = 0 ∨ D.length % 4 ≠ 0) := by omega
  constructor
  · rw [write_memory, if_neg hneg]
    simp [generic_execute_and_confirm, wait_for_ack, read_bytes, write, ACK, NACK,
      CMD_WRITE_MEMORY, List.append_assoc]
  · rw [write_memory, if_neg hneg]
    simp [generic_execute_and_confirm, wait_for_ack, read_bytes, write, ACK, NACK,
      CMD_WRITE_MEMORY, List.append_assoc]

/-- Witness for C3 at the 4-byte chunk `[1, 2, 3, 4]`. -/
theorem c3_write_memory_wire_witness :
    0 < ([1, 2, 3, 4] : List Nat).length ∧ ([1, 2, 3, 4] : List Nat).length ≤ 256 ∧
    ([1, 2, 3, 4] : List Nat).length % 4 = 0 ∧
    (write_memory 0x08000000 [1, 2, 3, 4] ⟨[ACK, ACK, ACK], []⟩ =
      (.ok (), ⟨[], ([CMD_WRITE_MEMORY, CMD_WRITE_MEMORY ^^^ 0xFF] ++
        encode_address_with_checksum 0x08000000) ++
        ([([1, 2, 3, 4] : List Nat).length - 1] ++ [1, 2, 3, 4] ++
          [([1, 2, 3, 4] : List Nat).foldl (· ^^^ ·)
            (([1, 2, 3, 4] : List Nat).length - 1)])⟩)
    ∧ write_memory 0x08000000 [1, 2, 3, 4] ⟨[ACK, ACK], []⟩ =
      (.error .timeout, ⟨[], ([CMD_WRITE_MEMORY, CMD_WRITE_MEMORY ^^^ 0xFF] ++
        encode_address_with_checksum 0x08000000) ++
        ([([1, 2, 3, 4] : List Nat).length - 1] ++ [1, 2, 3, 4] ++
          [([1, 2, 3, 4] : List Nat).foldl (· ^^^ ·)
            (([1, 2, 3, 4] : List Nat).length - 1)])⟩)) :=
  ⟨by decide, by decide, by decide,
   c3_write_memory_wire [1, 2, 3, 4] 0x08000000 (by decide) (by decide) (by decide)⟩

/-- C4 counterexample: `read_memory` does not truncate a `length > 256`
request to a 256-byte transfer.  With a channel holding the three ACKs
and exactly the 256 data bytes a device would send for the (capped)
encoded length, a `read_memory` of 257 bytes attempts to read 257 bytes
from the channel and fails with a timeout instead of returning the 256
available bytes. -/
theorem c4_counterexample :
    (read_memory 5 257 ⟨[ACK, ACK, ACK] ++ List.replicate 256 0xAB, []⟩).1 =
      .error .timeout := by
  rfl

/-- C4 amended: only the length byte encoded to the device is capped at
256 (`min(length, 256) - 1` plus its complement); the channel read-back
is not capped — `read_memory(address, length)` always attempts to read
exactly `length` data bytes from the channel and returns them all. -/
theorem c4_read_memory_length (sa len : Nat) (bs : List Nat)
    (h1 : 0 < len) (h2 : bs.length = len) :
    read_memory sa len ⟨[ACK, ACK, ACK] ++ bs, []⟩ =
      (.ok bs, ⟨[], ([CMD_READ_MEMORY, CMD_READ_MEMORY ^^^ 0xFF] ++
         encode_address_with_checksum sa) ++
         [min len 256 - 1, (min len 256 - 1) ^^^ 0xFF]⟩) := by
  simp [read_memory, generic_execute_and_confirm, wait_for_ack, read_bytes, write,
    ACK, NACK, CMD_READ_MEMORY, h2, List.append_assoc]

/-- Witness for C4 amended at a 257-byte request: all 257 bytes are read
back from the channel (no truncation to 256). -/
theorem c4_read_memory_length_witness :
    0 < 257 ∧ (List.replicate 257 7).length = 257 ∧
    read_memory 5 257 ⟨[ACK, ACK, ACK] ++ List.replicate 257 7, []⟩ =
      (.ok (List.replicate 257 7),
       ⟨[], ([CMD_READ_MEMORY, CMD_READ_MEMORY ^^^ 0xFF] ++
         encode_address_with_checksum 5) ++
         [min 257 256 - 1, (min 257 256 - 1) ^^^ 0xFF]⟩) :=
  ⟨by decide, by simp,
   c4_read_memory_length 5 257 (List.replicate 257 7) (by decide) (by simp)⟩

/-- C8: for every 32-bit unsigned address, `encodeAddress`
(`_encode_address_with_checksum`) produces exactly 5 bytes, the 4
big-endian bytes of the address followed by their XOR, so recomposing
the first 4 bytes big-endian recovers the address and the fifth byte is
the XOR of the other four. -/
theorem c8_encode_address (A : Nat) (h : A < 4294967296) :
    (encode_address_with_checksum A).length = 5 ∧
    encode_address_with_checksum A =
      [A / 16777216 % 256, A / 65536 % 256, A / 256 % 256, A % 256,
       A / 16777216 % 256 ^^^ A / 65536 % 256 ^^^ A / 256 % 256 ^^^ A % 256] ∧
    ((A / 16777216 % 256 * 256 + A / 65536 % 256) * 256 + A / 256 % 256) * 256 + A % 256
      = A := by
  refine ⟨rfl, ?_, by omega⟩
  simp [encode_address_with_checksum]

/-- Witness for C8 at the default flash address `0x08000000`. -/
theorem c8_encode_address_witness :
    (0x08000000 : Nat) < 4294967296 ∧
    ((encode_address_with_checksum 0x08000000).length = 5 ∧
     encode_address_with_checksum 0x08000000 =
       [0x08000000 / 16777216 % 256, 0x08000000 / 65536 % 256,
        0x08000000 / 256 % 256, 0x08000000 % 256,
        0x08000000 / 16777216 % 256 ^^^ 0x08000000 / 65536 % 256 ^^^
          0x08000000 / 256 % 256 ^^^ 0x08000000 % 256] ∧
     ((0x08000000 / 16777216 % 256 * 256 + 0x08000000 / 65536 % 256) * 256 +
        0x08000000 / 256 % 256) * 256 + 0x08000000 % 256 = 0x08000000) :=
  ⟨by decide, c8_encode_address 0x08000000 (by decide)⟩

/-- Device info returned by `STM32Loader.get` (lines 112-119): the
bootloader version byte and the advertised command opcodes. -/
structure DeviceInfo where
  version : Nat
  commands : List Nat
deriving DecidableEq, Repr

/-- Observable events of a `load` run, in order: one constructor per
device exchange performed by the loader methods, plus the
progress-callback invocations (`progress stage value`, where `value` is
`none` for the stage-started reports of `load` and `some q` for the
fractional reports of the block-transfer engine) and the final channel
close. -/
inductive Event where
  | syncEvt ( skipPfx : Bool)
  | getEvt
  | getVersionEvt
  | getIdEvt
  | readoutUnprotectEvt
  | writeUnprotectEvt
  | globalEraseEvt
  | extendedEraseEvt
  | writeChunk (addr : Nat) (data : List Nat)
  | readChunk (addr : Nat) (len : Nat)
  | goEvt (addr : Nat)
  | progress (stage : String) (value : Option ℚ)
  | closeEvt
deriving DecidableEq, Repr

/-- Oracle for the orchestrator level: the outcome of each device
exchange a loader method performs.  `syncRes i b` is the outcome of the
`i`-th `synchronize` call (with its `skip_prefix` argument `b`) and
`getRes i` the outcome of the `i`-th `get()` call, so outcomes may
depend on how often the device has been poked; the remaining fields
give the outcomes of the other commands.  `readMemoryRes a l` is the
byte list a `read_memory(a, l)` returns on success. -/
structure Loader where
  syncRes : Nat → Bool → Except Err Unit
  getRes : Nat → Except Err DeviceInfo
  getVersionRes : Except Err (Nat × Nat × Nat)
  getIdRes : Except Err Nat
  readoutUnprotectRes : Except Err Unit
  writeUnprotectRes : Except Err Unit
  globalEraseRes : Except Err Unit
  extendedEraseRes : Except Err Unit
  writeMemoryRes : Nat → List Nat → Except Err Unit
  readMemoryRes : Nat → Nat → Except Err (List Nat)
  goRes : Nat → Except Err Unit

/-- Orchestrator view of `STM32Loader.write_memory` (lines 172-194): the
length validation happens before any device exchange; a valid chunk is
one `writeChunk` exchange whose outcome the oracle decides. -/
def write_memoryO (dev : Loader) (start_address : Nat) (data : List Nat) :
    Except Err Unit × List Event :=
  if data.length > 256 ∨ data.length = 0 ∨ data.length % 4 ≠ 0 then
    (.error .invalidDataLength, [])
  else
    (dev.writeMemoryRes start_address data, [.writeChunk start_address data])

/-- Orchestrator view of `STM32Loader.read_memory` (lines 155-170): one
`readChunk` exchange whose outcome the oracle decides. -/
def read_memoryO (dev : Loader) (start_address length : Nat) :
    Except Err (List Nat) × List Event :=
  (dev.readMemoryRes start_address length, [.readChunk start_address length])

/-- Embeds the `while length > WRITE_BLOCK_SIZE` loop and the trailing
remainder write of `STM32Loader.write_memory_blocks` (lines 237-244):
after each full chunk the progress callback is invoked with
`offset / float(len(data))` for the updated offset; the remainder chunk
gets no such call. -/
def write_blocks_loop (dev : Loader) (start_address : Nat) (data : List Nat)
    (cb : ℚ → Event) (length offset : Nat) : Except Err Unit × List Event :=
  if h : length > WRITE_BLOCK_SIZE then
    let step := write_memoryO dev (start_address + offset) ((data.drop offset).take WRITE_BLOCK_SIZE)
    match step.1 with
    | .error e => (.error e, step.2)
    | .ok _ =>
      let rest := write_blocks_loop dev start_address data cb
          (length - WRITE_BLOCK_SIZE) (offset + WRITE_BLOCK_SIZE)
      (rest.1, step.2 ++
        [cb (((offset + WRITE_BLOCK_SIZE : Nat) : ℚ) / ((data.length : Nat) : ℚ))] ++ rest.2)
  else if length > 0 then
    write_memoryO dev (start_address + offset) ((data.drop offset).take length)
  else
    (.ok (), [])
termination_by length
decreasing_by simp only [WRITE_BLOCK_SIZE] at h ⊢; omega

/-- Embeds `STM32Loader.write_memory_blocks` (lines 231-246): run the
chunk loop starting from `length = len(data)`, `offset = 0`, then invoke
the progress callback once more with `1.0`. -/
def write_memory_blocks (dev : Loader) (start_address : Nat) (data : List Nat)
    (cb : ℚ → Event) : Except Err Unit × List Event :=
  match write_blocks_loop dev start_address data cb data.length 0 with
  | (.error e, t) => (.error e, t)
  | (.ok _, t) => (.ok (), t ++ [cb 1])

/-- Embeds the `while length > READ_BLOCK_SIZE` loop and the trailing
remainder read of `STM32Loader.read_memory_blocks` (lines 219-227),
accumulating the chunks in `output`. -/
def read_blocks_loop (dev : Loader) (start_address : Nat) (cb : ℚ → Event)
    (original_length length offset : Nat) (output : List Nat) :
    Except Err (List Nat) × List Event :=
  if h : length > READ_BLOCK_SIZE then
    let step := read_memoryO dev (start_address + offset) READ_BLOCK_SIZE
    match step.1 with
    | .error e => (.error e, step.2)
    | .ok chunk =>
      let rest := read_blocks_loop dev start_address cb original_length
          (length - READ_BLOCK_SIZE) (offset + READ_BLOCK_SIZE) (output ++ chunk)
      (rest.1, step.2 ++
        [cb (((offset + READ_BLOCK_SIZE : Nat) : ℚ) / ((original_length : Nat) : ℚ))] ++ rest.2)
  else if length > 0 then
    let step := read_memoryO dev (start_address + offset) length
    match step.1 with
    | .error e => (.error e, step.2)
    | .ok chunk => (.ok (output ++ chunk), step.2)
  else
    (.ok output, [])
termination_by length
decreasing_by simp only [READ_BLOCK_SIZE] at h ⊢; omega

/-- Embeds `STM32Loader.read_memory_blocks` (lines 212-229). -/
def read_memory_blocks (dev : Loader) (start_address length : Nat)
    (cb : ℚ → Event) : Except Err (List Nat) × List Event :=
  match read_blocks_loop dev start_address cb length length 0 [] with
  | (.error e, t) => (.error e, t)
  | (.ok out, t) => (.ok out, t ++ [cb 1])

/-- Embeds the padding loop of `load` (lines 260-261):
`while len(binary_image) % 4 != 0: binary_image += b'\xFF'`. -/
def padImage (binary_image : List Nat) : List Nat :=
  if binary_image.length % 4 = 0 then binary_image
  else padImage (binary_image ++ [0xFF])
termination_by (4 - binary_image.length % 4) % 4
decreasing_by simp; omega

/-- Embeds `load_address = load_address or DEFAULT_FLASH_ADDRESS`
(line 259): Python `or` also replaces an explicit `0`. -/
def resolveLoadAddress : Option Nat → Nat
  | none => DEFAULT_FLASH_ADDRESS
  | some a => if a = 0 then DEFAULT_FLASH_ADDRESS else a

/-- Embeds the resynchronization loop of `load` (lines 274-280):
`for _ in range(3)`, each iteration attempting `get()` and on any
failure (swallowed) calling `synchronize(skip_prefix=True)`, whose own
failure propagates.  `g` and `s` number the `get` and `synchronize`
calls made so far; the returned numbers are the updated counters. -/
def sync_retry_loop (dev : Loader) : Nat → Nat → Nat → Except Err Unit × List Event × Nat × Nat
  | 0, g, s => (.ok (), [], g, s)
  | n + 1, g, s =>
    match dev.getRes g with
    | .ok _ => (.ok (), [.getEvt], g + 1, s)
    | .error _ =>
      match dev.syncRes s true with
      | .error e => (.error e, [.getEvt, .syncEvt true], g + 1, s + 1)
      | .ok _ =>
        match sync_retry_loop dev n (g + 1) (s + 1) with
        | (r, t, g', s') => (r, .getEvt :: .syncEvt true :: t, g', s')

/-- Embeds the two optional unprotect steps of `load` (lines 292-298):
run the unprotect command; on success run `synchronize()` (default
`skip_prefix=False`), whose failure propagates. -/
def load_unprotect_step (res : Except Err Unit) (evt : Event) (dev : Loader) (s : Nat) :
    Except Err Unit × List Event × Nat :=
  match res with
  | .error e => (.error e, [evt], s)
  | .ok _ =>
    match dev.syncRes s false with
    | .error e => (.error e, [evt, .syncEvt false], s + 1)
    | .ok _ => (.ok (), [evt, .syncEvt false], s + 1)

/-- Embeds the target-preparation part of `load` (lines 292-303): the
optional unprotect steps followed by the capability-driven erase —
`globalErase` when opcode `0x43` is advertised, `extendedErase`
otherwise. -/
def load_configure (dev : Loader) (s : Nat) (var_get : DeviceInfo)
    ( readout_unprotect write_unprotect : Bool) : Except Err Unit × List Event × Nat :=
  match (if readout_unprotect then
          load_unprotect_step dev.readoutUnprotectRes .readoutUnprotectEvt dev s
         else (.ok (), [], s)) with
  | (.error e, t, s') => (.error e, t, s')
  | (.ok _, t, s') =>
    match (if write_unprotect then
            load_unprotect_step dev.writeUnprotectRes .writeUnprotectEvt dev s'
           else (.ok (), [], s')) with
    | (.error e, t2, s'') => (.error e, t ++ t2, s'')
    | (.ok _, t2, s'') =>
      if CMD_ERASE ∈ var_get.commands then
        (dev.globalEraseRes, t ++ t2 ++ [.globalEraseEvt], s'')
      else
        (dev.extendedEraseRes, t ++ t2 ++ [.extendedEraseEvt], s'')

/-- Embeds the final `go` step of `load` (lines 317-318). -/
def load_go_phase (dev : Loader) (la : Nat) (go : Bool) : Except Err Unit × List Event :=
  if go then (dev.goRes la, [.goEvt la]) else (.ok (), [])

/-- Embeds the write / verification / go part of `load` (lines
305-318): write the image in blocks with stage label `Writing image`,
read it back with stage label `Verification`, fail with the
verification error on any mismatch, otherwise optionally `go`. -/
def load_write_verify_go (dev : Loader) (la : Nat) (img : List Nat) (go : Bool) :
    Except Err Unit × List Event :=
  match write_memory_blocks dev la img (fun q => .progress "Writing image" (some q)) with
  | (.error e, t) => (.error e, t)
  | (.ok _, t) =>
    match read_memory_blocks dev la img.length (fun q => .progress "Verification" (some q)) with
    | (.error e, t2) => (.error e, t ++ t2)
    | (.ok readback, t2) =>
      if readback ≠ img then (.error .verification, t ++ t2)
      else
        match load_go_phase dev la go with
        | (r, t3) => (r, t ++ t2 ++ t3)

/-- Embeds `load` (lines 249-321).  The first `synchronize` attempt has
its outcome swallowed (`except Exception: pass`); the retry loop may
propagate a `synchronize` failure; the canonical `get()` on line 283 and
the two device exchanges performed inside the `logger.info` calls on
lines 286-287 (`get_version_and_protection_status()`, `get_id()`)
propagate their failures; the `finally` block always closes the
channel. -/
def load (dev : Loader) (binary_image : List Nat) (load_address : Option Nat)
    ( readout_unprotect write_unprotect go : Bool) : Except Err Unit × List Event :=
  let la := resolveLoadAddress load_address
  let img := padImage binary_image
  let t0 : List Event := [.progress "Synchronization" none, .syncEvt false]
  match sync_retry_loop dev 3 0 1 with
  | (.error e, t1, _, _) => (.error e, t0 ++ t1 ++ [.closeEvt])
  | (.ok _, t1, g, s) =>
    match dev.getRes g with
    | .error e => (.error e, t0 ++ t1 ++ [.getEvt, .closeEvt])
    | .ok var_get =>
      match dev.getVersionRes with
      | .error e => (.error e, t0 ++ t1 ++ [.getEvt, .getVersionEvt, .closeEvt])
      | .ok _ =>
        match dev.getIdRes with
        | .error e =>
          (.error e, t0 ++ t1 ++ [.getEvt, .getVersionEvt, .getIdEvt, .closeEvt])
        | .ok _ =>
          let t2 := t0 ++ t1 ++
            [.getEvt, .getVersionEvt, .getIdEvt, .progress "Configuring target" none]
          match load_configure dev s var_get readout_unprotect write_unprotect with
          | (.error e, t3, _) => (.error e, t2 ++ t3 ++ [.closeEvt])
          | (.ok _, t3, _) =>
            match load_write_verify_go dev la img go with
            | (r, t4) => (r, t2 ++ t3 ++ t4 ++ [.closeEvt])

/-- Simulated well-behaved device for concrete runs: every exchange
succeeds, `get` always returns `info`, and reading `l` bytes at address
`a` returns `mem` applied to `a, a+1, ..., a+l-1`. -/
def mkDev (info : DeviceInfo) (mem : Nat → Nat) : Loader where
  syncRes := fun _ _ => .ok ()
  getRes := fun _ => .ok info
  getVersionRes := .ok (0x31, 0, 0)
  getIdRes := .ok 0x413
  readoutUnprotectRes := .ok ()
  writeUnprotectRes := .ok ()
  globalEraseRes := .ok ()
  extendedEraseRes := .ok ()
  writeMemoryRes := fun _ _ => .ok ()
  readMemoryRes := fun a l => .ok ((List.range' a l).map mem)
  goRes := fun _ => .ok ()

/-- Concatenation of the data of all `writeChunk` events of a trace, in
order: the bytes the loader handed to WRITE MEMORY exchanges. -/
def writtenBytes (t : List Event) : List Nat :=
  (t.filterMap fun e => match e with | .writeChunk _ d => some d | _ => none).flatten

/-- Fractional values passed to the progress callback, in order. -/
def progressValues (t : List Event) : List ℚ :=
  t.filterMap fun e => match e with | .progress _ (some q) => some q | _ => none

/-- Helper: `writtenBytes` distributes over trace concatenation. -/
theorem writtenBytes_append (t1 t2 : List Event) :
    writtenBytes (t1 ++ t2) = writtenBytes t1 ++ writtenBytes t2 := by
  simp [writtenBytes, List.filterMap_append]

/-- Helper: `writtenBytes` computation rule for a `writeChunk` head. -/
@[simp]
theorem writtenBytes_nil : writtenBytes [] = [] := rfl

/-- Helper: a `writeChunk` head contributes its chunk data. -/
@[simp]
theorem writtenBytes_writeChunk_cons (a : Nat) (d : List Nat) (t : List Event) :
    writtenBytes (.writeChunk a d :: t) = d ++ writtenBytes t := rfl

/-- Helper: a progress head contributes no written bytes. -/
@[simp]
theorem writtenBytes_progress_cons (s : String) (v : Option ℚ) (t : List Event) :
    writtenBytes (.progress s v :: t) = writtenBytes t := rfl

/-- Helper: a synchronize head contributes no written bytes. -/
@[simp]
theorem writtenBytes_syncEvt_cons (b : Bool) (t : List Event) :
    writtenBytes (.syncEvt b :: t) = writtenBytes t := rfl

/-- Helper: a `get` head contributes no written bytes. -/
@[simp]
theorem writtenBytes_getEvt_cons (t : List Event) :
    writtenBytes (.getEvt :: t) = writtenBytes t := rfl

/-- Helper: a version-query head contributes no written bytes. -/
@[simp]
theorem writtenBytes_getVersionEvt_cons (t : List Event) :
    writtenBytes (.getVersionEvt :: t) = writtenBytes t := rfl

/-- Helper: an id-query head contributes no written bytes. -/
@[simp]
theorem writtenBytes_getIdEvt_cons (t : List Event) :
    writtenBytes (.getIdEvt :: t) = writtenBytes t := rfl

/-- Helper: a readout-unprotect head contributes no written bytes. -/
@[simp]
theorem writtenBytes_readoutUnprotectEvt_cons (t : List Event) :
    writtenBytes (.readoutUnprotectEvt :: t) = writtenBytes t := rfl

/-- Helper: a write-unprotect head contributes no written bytes. -/
@[simp]
theorem writtenBytes_writeUnprotectEvt_cons (t : List Event) :
    writtenBytes (.writeUnprotectEvt :: t) = writtenBytes t := rfl

/-- Helper: a global-erase head contributes no written bytes. -/
@[simp]
theorem writtenBytes_globalEraseEvt_cons (t : List Event) :
    writtenBytes (.globalEraseEvt :: t) = writtenBytes t := rfl

/-- Helper: an extended-erase head contributes no written bytes. -/
@[simp]
theorem writtenBytes_extendedEraseEvt_cons (t : List Event) :
    writtenBytes (.extendedEraseEvt :: t) = writtenBytes t := rfl

/-- Helper: a `readChunk` head contributes no written bytes. -/
@[simp]
theorem writtenBytes_readChunk_cons (a l : Nat) (t : List Event) :
    writtenBytes (.readChunk a l :: t) = writtenBytes t := rfl

/-- Helper: a `go` head contributes no written bytes. -/
@[simp]
theorem writtenBytes_goEvt_cons (a : Nat) (t : List Event) :
    writtenBytes (.goEvt a :: t) = writtenBytes t := rfl

/-- Helper: a close head contributes no written bytes. -/
@[simp]
theorem writtenBytes_closeEvt_cons (t : List Event) :
    writtenBytes (.closeEvt :: t) = writtenBytes t := rfl

/-- Helper: `progressValues` distributes over trace concatenation. -/
theorem progressValues_append (t1 t2 : List Event) :
    progressValues (t1 ++ t2) = progressValues t1 ++ progressValues t2 := by
  simp [progressValues, List.filterMap_append]

/-- Closed form of the padding loop: `padImage` appends exactly
`(4 - len % 4) % 4` bytes `0xFF`. -/
theorem padImage_eq (img : List Nat) :
    padImage img = img ++ List.replicate ((4 - img.length % 4) % 4) 0xFF := by
  induction img using padImage.induct with
  | case1 img h =>
    rw [padImage, if_pos h]
    have h0 : (4 - img.length % 4) % 4 = 0 := (by omega)
    rw [h0]; simp
  | case2 img h ih =>
    rw [padImage, if_neg h, ih]
    simp only [List.append_assoc, List.length_append, List.length_cons, List.length_nil]
    congr 1
    have hc : (4 - (img.length + 1) % 4) % 4 + 1 = (4 - img.length % 4) % 4 := (by omega)
    rw [← hc, List.replicate_succ]
    simp

/-- Helper: the padded image length is a multiple of 4. -/
theorem padImage_length (img : List Nat) : (padImage img).length % 4 = 0 := by
  rw [padImage_eq]
  simp only [List.length_append, List.length_replicate]
  omega

/-- Expected event sequence of the write chunk loop on a device that
accepts every chunk: one `writeChunk` per iteration, a fractional
progress call after each full 256-byte chunk, none after the remainder
chunk. -/
def writeLoopTrace (sa : Nat) (data : List Nat) (cb : ℚ → Event)
    (length offset : Nat) : List Event :=
  if length > WRITE_BLOCK_SIZE then
    .writeChunk (sa + offset) ((data.drop offset).take WRITE_BLOCK_SIZE) ::
      cb (((offset + WRITE_BLOCK_SIZE : Nat) : ℚ) / ((data.length : Nat) : ℚ)) ::
      writeLoopTrace sa data cb (length - WRITE_BLOCK_SIZE) (offset + WRITE_BLOCK_SIZE)
  else if length > 0 then
    [.writeChunk (sa + offset) ((data.drop offset).take length)]
  else
    []
termination_by length
decreasing_by simp only [WRITE_BLOCK_SIZE] at *; omega

/-- Expected event sequence of the read chunk loop: one `readChunk` per
iteration, a fractional progress call after each full 256-byte chunk,
none after the remainder chunk. -/
def readLoopTrace (sa : Nat) (cb : ℚ → Event) (ol length offset : Nat) : List Event :=
  if length > READ_BLOCK_SIZE then
    .readChunk (sa + offset) READ_BLOCK_SIZE ::
      cb (((offset + READ_BLOCK_SIZE : Nat) : ℚ) / ((ol : Nat) : ℚ)) ::
      readLoopTrace sa cb ol (length - READ_BLOCK_SIZE) (offset + READ_BLOCK_SIZE)
  else if length > 0 then
    [.readChunk (sa + offset) length]
  else
    []
termination_by length
decreasing_by simp only [READ_BLOCK_SIZE] at *; omega

/-- The write chunk loop on a device that accepts every chunk succeeds
and produces exactly the `writeLoopTrace` events, provided the chunking
invariant `offset + length = len(data)` holds with a 4-aligned offset
and data length. -/
theorem write_blocks_loop_eq (dev : Loader) (sa : Nat) (data : List Nat) (cb : ℚ → Event)
    (hW : ∀ a d, dev.writeMemoryRes a d = .ok ())
    (h4 : data.length % 4 = 0) :
    ∀ length offset, offset + length = data.length → offset % 4 = 0 →
    write_blocks_loop dev sa data cb length offset =
      (.ok (), writeLoopTrace sa data cb length offset) := by
  intro length
  induction length using Nat.strong_induction_on with
  | _ length ih =>
    intro offset hinv hoff
    rw [write_blocks_loop.eq_def, writeLoopTrace.eq_def]
    by_cases hgt : length > WRITE_BLOCK_SIZE
    · rw [dif_pos hgt]
      have hlen : ((data.drop offset).take WRITE_BLOCK_SIZE).length = WRITE_BLOCK_SIZE := by
        simp only [WRITE_BLOCK_SIZE] at *
        simp only [List.length_take, List.length_drop]
        omega
      have hok : (write_memoryO dev (sa + offset)
          ((data.drop offset).take WRITE_BLOCK_SIZE)).1 = .ok () := by
        rw [write_memoryO, if_neg (by simp only [WRITE_BLOCK_SIZE] at *; omega)]
        simp [hW]
      have hrec := ih (length - WRITE_BLOCK_SIZE)
        (by simp only [WRITE_BLOCK_SIZE] at *; omega)
        (offset + WRITE_BLOCK_SIZE)
        (by simp only [WRITE_BLOCK_SIZE] at *; omega)
        (by simp only [WRITE_BLOCK_SIZE] at *; omega)
      rw [if_pos hgt]
      simp only [hok, hrec]
      rw [write_memoryO, if_neg (by simp only [WRITE_BLOCK_SIZE] at *; omega)]
      simp [hW]
    · rw [dif_neg hgt, if_neg hgt]
      by_cases hpos : length > 0
      · rw [if_pos hpos, if_pos hpos]
        have hlen : ((data.drop offset).take length).length = length := by
          simp only [List.length_take, List.length_drop]
          omega
        rw [write_memoryO,
          if_neg (by simp only [WRITE_BLOCK_SIZE] at *; omega)]
        simp [hW]
      · rw [if_neg hpos, if_neg hpos]

/-- The read chunk loop on a device that returns `mem`-contents for
every request succeeds with the accumulated memory contents of the
addressed range and produces exactly the `readLoopTrace` events. -/
theorem read_blocks_loop_eq (dev : Loader) (sa : Nat) (cb : ℚ → Event) (mem : Nat → Nat)
    (hR : ∀ a l, dev.readMemoryRes a l = .ok ((List.range' a l).map mem)) (ol : Nat) :
    ∀ length offset output,
    read_blocks_loop dev sa cb ol length offset output =
      (.ok (output ++ (List.range' (sa + offset) length).map mem),
       readLoopTrace sa cb ol length offset) := by
  intro length
  induction length using Nat.strong_induction_on with
  | _ length ih =>
    intro offset output
    rw [read_blocks_loop.eq_def, readLoopTrace.eq_def]
    by_cases hgt : length > READ_BLOCK_SIZE
    · rw [dif_pos hgt, if_pos hgt]
      have hrec := ih (length - READ_BLOCK_SIZE)
        (by simp only [READ_BLOCK_SIZE] at *; omega)
        (offset + READ_BLOCK_SIZE)
        (output ++ (List.range' (sa + offset) READ_BLOCK_SIZE).map mem)
      simp only [read_memoryO, hR, hrec]
      have hsplit : (List.range' (sa + offset) READ_BLOCK_SIZE).map mem ++
          (List.range' (sa + offset + READ_BLOCK_SIZE) (length - READ_BLOCK_SIZE)).map mem =
          (List.range' (sa + offset) length).map mem := by
        rw [← List.map_append, List.range'_append_1]
        congr 2
        simp only [READ_BLOCK_SIZE] at *
        omega
      simpa [Nat.add_assoc] using hsplit
    · rw [dif_neg hgt, if_neg hgt]
      by_cases hpos : length > 0
      · rw [if_pos hpos, if_pos hpos]
        simp [read_memoryO, hR]
      · rw [if_neg hpos, if_neg hpos]
        simp only [Nat.not_lt, Nat.le_zero] at hpos
        simp [hpos]

/-- On a device accepting every chunk, `write_memory_blocks` succeeds
and its trace is the loop trace followed by the final `1.0` progress
call. -/
theorem write_memory_blocks_eq (dev : Loader) (sa : Nat) (data : List Nat) (cb : ℚ → Event)
    (hW : ∀ a d, dev.writeMemoryRes a d = .ok ()) (h4 : data.length % 4 = 0) :
    write_memory_blocks dev sa data cb =
      (.ok (), writeLoopTrace sa data cb data.length 0 ++ [cb 1]) := by
  rw [write_memory_blocks,
    write_blocks_loop_eq dev sa data cb hW h4 data.length 0 (by omega) (by omega)]

/-- On a device serving `mem`-contents, `read_memory_blocks` returns the
memory contents of the addressed range, with the loop trace followed by
the final `1.0` progress call. -/
theorem read_memory_blocks_eq (dev : Loader) (sa L : Nat) (cb : ℚ → Event) (mem : Nat → Nat)
    (hR : ∀ a l, dev.readMemoryRes a l = .ok ((List.range' a l).map mem)) :
    read_memory_blocks dev sa L cb =
      (.ok ((List.range' sa L).map mem), readLoopTrace sa cb L L 0 ++ [cb 1]) := by
  rw [read_memory_blocks, read_blocks_loop_eq dev sa cb mem hR L L 0 []]
  simp

/-- Every event of the write loop trace is a `writeChunk` or a progress
callback value. -/
theorem mem_writeLoopTrace (sa : Nat) (data : List Nat) (cb : ℚ → Event) :
    ∀ length offset e, e ∈ writeLoopTrace sa data cb length offset →
      (∃ a d, e = .writeChunk a d) ∨ ∃ q, e = cb q := by
  intro length
  induction length using Nat.strong_induction_on with
  | _ length ih =>
    intro offset e he
    rw [writeLoopTrace.eq_def] at he
    by_cases hgt : length > WRITE_BLOCK_SIZE
    · rw [if_pos hgt] at he
      simp only [List.mem_cons] at he
      rcases he with rfl | rfl | he
      · exact .inl ⟨_, _, rfl⟩
      · exact .inr ⟨_, rfl⟩
      · exact ih _ (by simp only [WRITE_BLOCK_SIZE] at *; omega) _ _ he
    · rw [if_neg hgt] at he
      by_cases hpos : length > 0
      · rw [if_pos hpos] at he
        simp only [List.mem_singleton] at he
        exact .inl ⟨_, _, he⟩
      · rw [if_neg hpos] at he
        simp at he

/-- Every event of the read loop trace is a `readChunk` or a progress
callback value. -/
theorem mem_readLoopTrace (sa : Nat) (cb : ℚ → Event) (ol : Nat) :
    ∀ length offset e, e ∈ readLoopTrace sa cb ol length offset →
      (∃ a l, e = .readChunk a l) ∨ ∃ q, e = cb q := by
  intro length
  induction length using Nat.strong_induction_on with
  | _ length ih =>
    intro offset e he
    rw [readLoopTrace.eq_def] at he
    by_cases hgt : length > READ_BLOCK_SIZE
    · rw [if_pos hgt] at he
      simp only [List.mem_cons] at he
      rcases he with rfl | rfl | he
      · exact .inl ⟨_, _, rfl⟩
      · exact .inr ⟨_, rfl⟩
      · exact ih _ (by simp only [READ_BLOCK_SIZE] at *; omega) _ _ he
    · rw [if_neg hgt] at he
      by_cases hpos : length > 0
      · rw [if_pos hpos] at he
        simp only [List.mem_singleton] at he
        exact .inl ⟨_, _, he⟩
      · rw [if_neg hpos] at he
        simp at he

/-- The chunks of the write loop trace concatenate to the suffix of the
data from the current offset on. -/
theorem writtenBytes_writeLoopTrace (sa : Nat) (data : List Nat) (stg : String) :
    ∀ length offset, offset + length = data.length →
    writtenBytes (writeLoopTrace sa data (fun q => .progress stg (some q)) length offset) =
      data.drop offset := by
  intro length
  induction length using Nat.strong_induction_on with
  | _ length ih =>
    intro offset hinv
    rw [writeLoopTrace.eq_def]
    by_cases hgt : length > WRITE_BLOCK_SIZE
    · rw [if_pos hgt]
      have hrec := ih (length - WRITE_BLOCK_SIZE)
        (by simp only [WRITE_BLOCK_SIZE] at *; omega)
        (offset + WRITE_BLOCK_SIZE)
        (by simp only [WRITE_BLOCK_SIZE] at *; omega)
      have hdd : data.drop (offset + WRITE_BLOCK_SIZE) =
          (data.drop offset).drop WRITE_BLOCK_SIZE := by
        rw [List.drop_drop]
      simp only [writtenBytes] at hrec ⊢
      simp only [List.filterMap_cons, List.flatten_cons]
      rw [hrec, hdd, List.take_append_drop]
    · rw [if_neg hgt]
      by_cases hpos : length > 0
      · rw [if_pos hpos]
        simp only [writtenBytes, List.filterMap_cons, List.filterMap_nil, List.flatten]
        have hle : (data.drop offset).length ≤ length := by
          simp only [List.length_drop]
          omega
        simp [List.take_of_length_le hle]
      · rw [if_neg hpos]
        have : offset = data.length := by omega
        simp [writtenBytes, this]

/-- The read loop trace contains no `writeChunk` events. -/
theorem writtenBytes_readLoopTrace (sa : Nat) (stg : String) (ol length offset : Nat) :
    writtenBytes (readLoopTrace sa (fun q => .progress stg (some q)) ol length offset) = [] := by
  rw [writtenBytes]
  have hall : ∀ e ∈ readLoopTrace sa (fun q => .progress stg (some q)) ol length offset,
      (match e with | .writeChunk _ d => some d | _ => none) = (none : Option (List Nat)) := by
    intro e he
    rcases mem_readLoopTrace _ _ _ _ _ _ he with ⟨a, l, rfl⟩ | ⟨q, rfl⟩ <;> rfl
  rw [List.filterMap_eq_nil.mpr hall]
  rfl

/-- Progress values of the write loop trace: one fraction
`(offset + (i+1)*256) / len(data)` per full chunk. -/
theorem progressValues_writeLoopTrace (sa : Nat) (data : List Nat) (stg : String) :
    ∀ length offset,
    progressValues (writeLoopTrace sa data (fun q => .progress stg (some q)) length offset) =
      (List.range ((length - 1) / 256)).map
        (fun i => ((offset + (i + 1) * 256 : Nat) : ℚ) / ((data.length : Nat) : ℚ)) := by
  intro length
  induction length using Nat.strong_induction_on with
  | _ length ih =>
    intro offset
    rw [writeLoopTrace.eq_def]
    by_cases hgt : length > WRITE_BLOCK_SIZE
    · rw [if_pos hgt]
      have hrec := ih (length - WRITE_BLOCK_SIZE)
        (by simp only [WRITE_BLOCK_SIZE] at *; omega) (offset + WRITE_BLOCK_SIZE)
      simp only [progressValues, List.filterMap_cons] at hrec ⊢
      rw [hrec]
      have hn : (length - 1) / 256 = (length - WRITE_BLOCK_SIZE - 1) / 256 + 1 := by
        simp only [WRITE_BLOCK_SIZE] at *; omega
      rw [hn, List.range_succ_eq_map, List.map_cons, List.map_map]
      simp only [WRITE_BLOCK_SIZE]
      congr 1
      apply List.map_congr_left
      intro i _
      simp only [Function.comp_apply, Nat.succ_eq_add_one]
      push_cast
      ring
    · rw [if_neg hgt]
      have h0 : (length - 1) / 256 = 0 := by
        simp only [WRITE_BLOCK_SIZE] at hgt; omega
      rw [h0]
      by_cases hpos : length > 0
      · rw [if_pos hpos]
        simp [progressValues]
      · rw [if_neg hpos]
        simp [progressValues]

/-- Progress values of the read loop trace: one fraction
`(offset + (i+1)*256) / originalLength` per full chunk. -/
theorem progressValues_readLoopTrace (sa : Nat) (stg : String) (ol : Nat) :
    ∀ length offset,
    progressValues (readLoopTrace sa (fun q => .progress stg (some q)) ol length offset) =
      (List.range ((length - 1) / 256)).map
        (fun i => ((offset + (i + 1) * 256 : Nat) : ℚ) / ((ol : Nat) : ℚ)) := by
  intro length
  induction length using Nat.strong_induction_on with
  | _ length ih =>
    intro offset
    rw [readLoopTrace.eq_def]
    by_cases hgt : length > READ_BLOCK_SIZE
    · rw [if_pos hgt]
      have hrec := ih (length - READ_BLOCK_SIZE)
        (by simp only [READ_BLOCK_SIZE] at *; omega) (offset + READ_BLOCK_SIZE)
      simp only [progressValues, List.filterMap_cons] at hrec ⊢
      rw [hrec]
      have hn : (length - 1) / 256 = (length - READ_BLOCK_SIZE - 1) / 256 + 1 := by
        simp only [READ_BLOCK_SIZE] at *; omega
      rw [hn, List.range_succ_eq_map, List.map_cons, List.map_map]
      simp only [READ_BLOCK_SIZE]
      congr 1
      apply List.map_congr_left
      intro i _
      simp only [Function.comp_apply, Nat.succ_eq_add_one]
      push_cast
      ring
    · rw [if_neg hgt]
      have h0 : (length - 1) / 256 = 0 := by
        simp only [READ_BLOCK_SIZE] at hgt; omega
      rw [h0]
      by_cases hpos : length > 0
      · rw [if_pos hpos]
        simp [progressValues]
      · rw [if_neg hpos]
        simp [progressValues]

/-- Progress-callback values the source promises per block transfer of
`L > 0` bytes: the fractions `(i+1)*256 / L` for each of the
`(L-1)/256` full 256-byte chunks of the loop, then the final `1.0`. -/
def fracList (L : Nat) : List ℚ :=
  (List.range ((L - 1) / 256)).map (fun i => (((i + 1) * 256 : Nat) : ℚ) / ((L : Nat) : ℚ)) ++ [1]

/-- Closed form of the configuration phase on the simulated device. -/
theorem load_configure_mkDev (info : DeviceInfo) (mem : Nat → Nat) (s : Nat)
    (vg : DeviceInfo) (ro wu : Bool) :
    load_configure (mkDev info mem) s vg ro wu =
      (.ok (),
       (if ro then [.readoutUnprotectEvt, .syncEvt false] else []) ++
       (if wu then [.writeUnprotectEvt, .syncEvt false] else []) ++
       [if CMD_ERASE ∈ vg.commands then .globalEraseEvt else .extendedEraseEvt],
       s + (if ro then 1 else 0) + (if wu then 1 else 0)) := by
  cases ro <;> cases wu <;>
    by_cases hmem : CMD_ERASE ∈ vg.commands <;>
    simp [load_configure, load_unprotect_step, mkDev, hmem]

/-- Closed form of the write / verification / go phase on the simulated
device: write succeeds, the read-back is the device memory over the
addressed range, the comparison against `data` decides the outcome, and
`go` runs only on a successful comparison. -/
theorem load_write_verify_go_mkDev (info : DeviceInfo) (mem : Nat → Nat) (la : Nat)
    (data : List Nat) (g : Bool) (h4 : data.length % 4 = 0) :
    load_write_verify_go (mkDev info mem) la data g =
      ((if (List.range' la data.length).map mem = data then .ok ()
        else .error .verification),
       (writeLoopTrace la data (fun q => .progress "Writing image" (some q)) data.length 0 ++
        [.progress "Writing image" (some 1)]) ++
       ((readLoopTrace la (fun q => .progress "Verification" (some q))
          data.length data.length 0 ++
        [.progress "Verification" (some 1)]) ++
       (if (List.range' la data.length).map mem = data ∧ g then [.goEvt la] else []))) := by
  rw [load_write_verify_go,
    write_memory_blocks_eq (mkDev info mem) la data _ (fun _ _ => rfl) h4,
    read_memory_blocks_eq (mkDev info mem) la data.length _ mem (fun _ _ => rfl)]
  by_cases hcmp : (List.range' la data.length).map mem = data
  · simp only [hcmp, if_pos, ite_not]
    cases g <;> simp [load_go_phase, mkDev, hcmp]
  · simp [hcmp, load_go_phase]

/-- Full closed form of a `load` run against the simulated device
`mkDev info mem`: synchronization succeeds at the first `get` attempt,
the canonical `get`, version and id queries succeed, the optional
unprotect steps and the capability-selected erase succeed, the padded
image is written chunk-wise, read back from device memory, compared, and
`go` runs only when the comparison succeeds. -/
theorem load_mkDev_eq (info : DeviceInfo) (mem : Nat → Nat) (img : List Nat)
    (la : Option Nat) (ro wu g : Bool) :
    load (mkDev info mem) img la ro wu g =
      ((if (List.range' (resolveLoadAddress la) (padImage img).length).map mem = padImage img
          then .ok () else .error .verification),
       ([.progress "Synchronization" none, .syncEvt false, .getEvt] ++
        [.getEvt, .getVersionEvt, .getIdEvt, .progress "Configuring target" none]) ++
       ((if ro then [.readoutUnprotectEvt, .syncEvt false] else []) ++
        (if wu then [.writeUnprotectEvt, .syncEvt false] else []) ++
        [if CMD_ERASE ∈ info.commands then .globalEraseEvt else .extendedEraseEvt]) ++
       ((writeLoopTrace (resolveLoadAddress la) (padImage img)
           (fun q => .progress "Writing image" (some q)) (padImage img).length 0 ++
         [.progress "Writing image" (some 1)]) ++
        ((readLoopTrace (resolveLoadAddress la)
            (fun q => .progress "Verification" (some q))
            (padImage img).length (padImage img).length 0 ++
          [.progress "Verification" (some 1)]) ++
         (if (List.range' (resolveLoadAddress la) (padImage img).length).map mem = padImage img
            ∧ g then [.goEvt (resolveLoadAddress la)] else []))) ++
       [.closeEvt]) := by
  rw [load]
  have hsync : sync_retry_loop (mkDev info mem) 3 0 1 = (.ok (), [.getEvt], 1, 1) := rfl
  rw [hsync]
  simp only [show ∀ i, (mkDev info mem).getRes i = .ok info from fun _ => rfl,
    show (mkDev info mem).getVersionRes = .ok (0x31, 0, 0) from rfl,
    show (mkDev info mem).getIdRes = .ok 0x413 from rfl]
  rw [load_configure_mkDev info mem 1 info ro wu,
    load_write_verify_go_mkDev info mem (resolveLoadAddress la) (padImage img) g
      (padImage_length img)]
  simp [List.append_assoc]

/-- C2: when the read-back differs from the padded image, `load` fails
with the verification error and `go` is never called on that run. -/
theorem c2_verification_mismatch (info : DeviceInfo) (mem : Nat → Nat) (img : List Nat)
    (la : Option Nat) (ro wu g : Bool)
    (hmm : (List.range' (resolveLoadAddress la) (padImage img).length).map mem
      ≠ padImage img) :
    (load (mkDev info mem) img la ro wu g).1 = .error .verification ∧
    ∀ a, Event.goEvt a ∉ (load (mkDev info mem) img la ro wu g).2 := by
  have hwmem : ∀ a, Event.goEvt a ∉ writeLoopTrace (resolveLoadAddress la) (padImage img)
      (fun q => .progress "Writing image" (some q)) (padImage img).length 0 := by
    intro a hx
    rcases mem_writeLoopTrace _ _ _ _ _ _ hx with ⟨u, v, hu⟩ | ⟨q, hu⟩ <;> simp at hu
  have hrmem : ∀ a, Event.goEvt a ∉ readLoopTrace (resolveLoadAddress la)
      (fun q => .progress "Verification" (some q))
      (padImage img).length (padImage img).length 0 := by
    intro a hx
    rcases mem_readLoopTrace _ _ _ _ _ _ hx with ⟨u, v, hu⟩ | ⟨q, hu⟩ <;> simp at hu
  rw [load_mkDev_eq]
  refine ⟨by simp [hmm], ?_⟩
  intro a hmem
  by_cases hc : CMD_ERASE ∈ info.commands <;>
    simp [hmm, hc, hwmem, hrmem] at hmem

/-- Witness for C2: a device whose memory reads back all zeros against
the image `[1, 2, 3, 4]` loaded at address 4. -/
theorem c2_verification_mismatch_witness :
    ((List.range' (resolveLoadAddress (some 4)) (padImage [1, 2, 3, 4]).length).map
        (fun _ => (0 : Nat)) ≠ padImage [1, 2, 3, 4]) ∧
    ((load (mkDev ⟨0x31, [0x43]⟩ (fun _ => 0)) [1, 2, 3, 4] (some 4) false false true).1
        = .error .verification ∧
     ∀ a, Event.goEvt a ∉
       (load (mkDev ⟨0x31, [0x43]⟩ (fun _ => 0)) [1, 2, 3, 4] (some 4) false false true).2) :=
  have h : (List.range' (resolveLoadAddress (some 4)) (padImage [1, 2, 3, 4]).length).map
      (fun _ => (0 : Nat)) ≠ padImage [1, 2, 3, 4] := by
    rw [show padImage [1, 2, 3, 4] = [1, 2, 3, 4] from by rw [padImage]; simp]
    decide
  ⟨h, c2_verification_mismatch ⟨0x31, [0x43]⟩ (fun _ => 0) [1, 2, 3, 4] (some 4)
    false false true h⟩

/-- C6: exactly one erase command is issued per `load` run, selected by
capability: `globalErase` when opcode `0x43` is advertised,
`extendedErase` otherwise — never both. -/
theorem c6_erase_selection (info : DeviceInfo) (mem : Nat → Nat) (img : List Nat)
    (la : Option Nat) (ro wu g : Bool) :
    (load (mkDev info mem) img la ro wu g).2.count .globalEraseEvt
        = (if CMD_ERASE ∈ info.commands then 1 else 0) ∧
    (load (mkDev info mem) img la ro wu g).2.count .extendedEraseEvt
        = (if CMD_ERASE ∈ info.commands then 0 else 1) := by
  have cw : ∀ ev, (ev = Event.globalEraseEvt ∨ ev = Event.extendedEraseEvt) →
      (writeLoopTrace (resolveLoadAddress la) (padImage img)
        (fun q => .progress "Writing image" (some q)) (padImage img).length 0).count ev = 0 := by
    intro ev hev
    rw [List.count_eq_zero]
    intro hmem
    rcases mem_writeLoopTrace _ _ _ _ _ _ hmem with ⟨x, d, hx⟩ | ⟨q, hx⟩ <;>
      rcases hev with rfl | rfl <;> simp at hx
  have cr : ∀ ev, (ev = Event.globalEraseEvt ∨ ev = Event.extendedEraseEvt) →
      (readLoopTrace (resolveLoadAddress la)
        (fun q => .progress "Verification" (some q))
        (padImage img).length (padImage img).length 0).count ev = 0 := by
    intro ev hev
    rw [List.count_eq_zero]
    intro hmem
    rcases mem_readLoopTrace _ _ _ _ _ _ hmem with ⟨x, l, hx⟩ | ⟨q, hx⟩ <;>
      rcases hev with rfl | rfl <;> simp at hx
  rw [load_mkDev_eq]
  simp only [List.count_append]
  rw [cw _ (Or.inl rfl), cw _ (Or.inr rfl), cr _ (Or.inl rfl), cr _ (Or.inr rfl)]
  constructor <;>
    · split_ifs <;>
        simp [List.count_cons, List.count_nil, List.count_append]

/-- C9: `load` pads the image with trailing `0xFF` bytes to a multiple
of 4 (exactly `(4 - len mod 4) mod 4` of them, none when the length is
already a multiple of 4), and this padded image is what the write phase
sends: the chunks written concatenate to exactly the padded image. -/
theorem c9_padding (img : List Nat) (info : DeviceInfo) (mem : Nat → Nat)
    (la : Option Nat) (ro wu g : Bool) :
    padImage img = img ++ List.replicate ((4 - img.length % 4) % 4) 0xFF ∧
    (padImage img).length % 4 = 0 ∧
    (img.length % 4 = 0 → padImage img = img) ∧
    writtenBytes (load (mkDev info mem) img la ro wu g).2 = padImage img := by
  refine ⟨padImage_eq img, padImage_length img, ?_, ?_⟩
  · intro h
    have h0 : (4 - img.length % 4) % 4 = 0 := (by omega)
    rw [padImage_eq, h0]
    simp
  · rw [load_mkDev_eq]
    have hw := writtenBytes_writeLoopTrace (resolveLoadAddress la) (padImage img)
      "Writing image" (padImage img).length 0 (by omega)
    rw [List.drop_zero] at hw
    have hr := writtenBytes_readLoopTrace (resolveLoadAddress la) "Verification"
      (padImage img).length (padImage img).length 0
    simp only [writtenBytes_append, hw, hr]
    split_ifs <;> simp

/-- C7 counterexample: for a single-chunk transfer (256 bytes) the
progress callback is invoked exactly once — with `1.0` — not once per
chunk plus a final `1.0` (which would be twice here). -/
theorem c7_counterexample :
    progressValues (write_memory_blocks (mkDev ⟨0, []⟩ (fun _ => 0)) 0 (List.replicate 256 0)
        (fun q => .progress "Writing image" (some q))).2 = [1] ∧
    ([1] : List ℚ) ≠ [((256 : Nat) : ℚ) / ((256 : Nat) : ℚ), (1 : ℚ)] := by
  constructor
  · rw [write_memory_blocks_eq _ _ _ _ (fun _ _ => rfl) (by simp), progressValues_append,
      progressValues_writeLoopTrace]
    norm_num [progressValues, List.filterMap_cons, List.filterMap_nil]
  · apply ne_of_apply_ne List.length
    decide

/-- C7 amended: for non-empty data (4-aligned, as WRITE MEMORY requires)
and positive read length, the progress callback is invoked after each
full 256-byte chunk with the fraction transferred-so-far over total —
the remainder chunk gets no fractional call — and then exactly once with
`1.0` on completion; the contract is the same for `writeBlocks` and
`readBlocks`. -/
theorem c7_progress_contract (info : DeviceInfo) (mem : Nat → Nat) (sa L : Nat)
    (data : List Nat) (stW stR : String)
    (hne : data ≠ []) (h4 : data.length % 4 = 0) (hL : 0 < L) :
    progressValues (write_memory_blocks (mkDev info mem) sa data
        (fun q => .progress stW (some q))).2 = fracList data.length ∧
    progressValues (read_memory_blocks (mkDev info mem) sa L
        (fun q => .progress stR (some q))).2 = fracList L := by
  constructor
  · rw [write_memory_blocks_eq _ _ _ _ (fun _ _ => rfl) h4, progressValues_append,
      progressValues_writeLoopTrace]
    simp [fracList, progressValues]
  · rw [read_memory_blocks_eq _ _ _ _ mem (fun _ _ => rfl), progressValues_append,
      progressValues_readLoopTrace]
    simp [fracList, progressValues]

/-- Witness for C7 amended at 512 bytes of data and a 300-byte read. -/
theorem c7_progress_contract_witness :
    ((List.replicate 512 0 : List Nat) ≠ [] ∧
     (List.replicate 512 0 : List Nat).length % 4 = 0 ∧ 0 < 300) ∧
    (progressValues (write_memory_blocks (mkDev ⟨0, []⟩ (fun _ => 0)) 8 (List.replicate 512 0)
        (fun q => .progress "Writing image" (some q))).2 = fracList (List.replicate 512 0 : List Nat).length ∧
     progressValues (read_memory_blocks (mkDev ⟨0, []⟩ (fun _ => 0)) 8 300
        (fun q => .progress "Verification" (some q))).2 = fracList 300) :=
  have h1 : (List.replicate 512 0 : List Nat) ≠ [] := (by simp)
  have h2 : (List.replicate 512 0 : List Nat).length % 4 = 0 := (by simp)
  have h3 : (0 : Nat) < 300 := (by decide)
  ⟨⟨h1, h2, h3⟩,
   c7_progress_contract ⟨0, []⟩ (fun _ => 0) 8 300 (List.replicate 512 0)
     "Writing image" "Verification" h1 h2 h3⟩

/-- C1 amended: `get()` is attempted 3 times inside the retry loop, each
failure followed by `synchronize(skipPrefix=true)` and swallowed; after
the loop a fourth `get()` is issued unconditionally, and when every
`get()` fails it is this fourth call's exception that propagates —
`load` then fails before any erase, write, read or go exchange. -/
theorem c1_sync_retry_amended (dev : Loader) (img : List Nat) (la : Option Nat)
    (ro wu g : Bool) (e : Nat → Err)
    (hg : ∀ i, dev.getRes i = .error (e i)) (hs : ∀ i b, dev.syncRes i b = .ok ()) :
    load dev img la ro wu g =
      (.error (e 3),
       [.progress "Synchronization" none, .syncEvt false,
        .getEvt, .syncEvt true, .getEvt, .syncEvt true, .getEvt, .syncEvt true,
        .getEvt, .closeEvt]) := by
  rw [load]
  have hloop : sync_retry_loop dev 3 0 1 =
      (.ok (), [.getEvt, .syncEvt true, .getEvt, .syncEvt true, .getEvt, .syncEvt true],
       3, 4) := by
    simp [sync_retry_loop, hg, hs]
  rw [hloop]
  simp [hg]

/-- Device whose `get` always times out while everything else succeeds,
for the C1 amended witness. -/
def devGetFails : Loader :=
  { mkDev ⟨0, []⟩ (fun _ => 0) with getRes := fun _ => .error .timeout }

/-- Witness for C1 amended on a device whose `get` always times out. -/
theorem c1_sync_retry_amended_witness :
    ((∀ i, devGetFails.getRes i = .error ((fun _ => Err.timeout) i)) ∧
     (∀ i b, devGetFails.syncRes i b = .ok ())) ∧
    load devGetFails [1, 2, 3, 4] none false false true =
      (.error .timeout,
       [.progress "Synchronization" none, .syncEvt false,
        .getEvt, .syncEvt true, .getEvt, .syncEvt true, .getEvt, .syncEvt true,
        .getEvt, .closeEvt]) :=
  have hg : ∀ i, devGetFails.getRes i = .error ((fun _ => Err.timeout) i) := fun _ => rfl
  have hs : ∀ i b, devGetFails.syncRes i b = .ok () := fun _ _ => rfl
  ⟨⟨hg, hs⟩,
   c1_sync_retry_amended devGetFails [1, 2, 3, 4] none false false true
     (fun _ => Err.timeout) hg hs⟩

/-- Device whose `get` fails exactly on the three retry-loop attempts
and succeeds from the fourth call on; all other exchanges succeed and
memory reads return `0x42` bytes. -/
def devGetThriceFails : Loader :=
  { mkDev ⟨0x31, [0x43]⟩ (fun _ => 0x42) with
    getRes := fun i => if i < 3 then .error .timeout else .ok ⟨0x31, [0x43]⟩,
    readMemoryRes := fun _ l => .ok (List.replicate l 0x42) }

/-- C1 counterexample: on a device where all 3 in-loop `get()` attempts
fail (and resynchronization then fixes the device, so the fourth `get()`
succeeds), `load` does NOT fail — it runs to completion, erasing and
writing — because the loop swallows the three failures and line 283
issues a further `get()`. -/
theorem c1_counterexample :
    (load devGetThriceFails (List.replicate 4 0x42) (some 1) false false true).1 = .ok () ∧
    Event.globalEraseEvt ∈
      (load devGetThriceFails (List.replicate 4 0x42) (some 1) false false true).2 := by
  constructor <;>
    simp [load, devGetThriceFails, mkDev, sync_retry_loop, load_configure,
      load_unprotect_step, load_write_verify_go, write_memory_blocks, read_memory_blocks,
      write_blocks_loop, read_blocks_loop, write_memoryO, read_memoryO, load_go_phase,
      padImage, resolveLoadAddress, WRITE_BLOCK_SIZE, READ_BLOCK_SIZE, CMD_ERASE]

/-- C10: for empty data, `writeBlocks` performs no `writeMemory` call —
no device exchange at all — succeeds, and invokes the progress callback
exactly once, with value `1.0`. -/
theorem c10_write_blocks_empty (dev : Loader) (start_address : Nat) (cb : ℚ → Event) :
    write_memory_blocks dev start_address [] cb = (.ok (), [cb 1]) := by
  rw [write_memory_blocks, write_blocks_loop.eq_def]
  simp [WRITE_BLOCK_SIZE]

end Stm32
